import Mathlib

/-
Shallow embedding of the goptics/sqliteq persistent queue (queue.go,
priority_queue.go, option.go, utils.go and the registry file).

The SQLite table backing a queue is modelled as a list of rows plus the
AUTOINCREMENT counter and a flag recording whether the `priority` column
has been added.  The shared registry connection (a Go sql.DB) is a `DB`
value: an open/closed flag plus a name-indexed collection of tables.
Storage faults (transaction begin / exec / commit failures) are injected
through a `TxFate` oracle; a begin/exec/commit reported as failed by the
oracle, or any statement issued on a closed connection, fails exactly
where the Go code checks (or fails to check) the corresponding error.

Timestamps (`time.Now().UTC()`) are abstracted as naturals passed in by
the caller; `cuid.New()` is abstracted as a caller-supplied fresh token.
`ORDER BY created_at ASC LIMIT 1` ties are resolved by rowid, matching
the SQLite index scan order, hence the lexicographic (created_at, id)
selection key.
-/

namespace Sqliteq

/-- Item status column: pending, processing or completed. -/
inductive Status where
  | pending : Status
  | processing : Status
  | completed : Status
deriving DecidableEq, Repr

/-- One row of a queue table (queue.go initTable: id, data, status,
ack_id, ack, created_at, updated_at; priority_queue.go adds priority,
DEFAULT 0 for rows inserted without it). -/
structure Row where
  id : Nat
  data : List Nat
  status : Status
  ack_id : Option String
  ack : Bool
  created_at : Nat
  updated_at : Nat
  priority : Int
deriving DecidableEq, Repr

/-- A queue table: rows, AUTOINCREMENT counter, and whether the
priority column exists. -/
structure Table where
  rows : List Row
  nextId : Nat
  hasPriority : Bool
deriving DecidableEq, Repr

/-- Freshly created table (CREATE TABLE in initTable): no rows, ids
start at 1, no priority column. -/
def emptyTable : Table := Table.mk [] 1 false

/-- Update the table stored under a name, or append it when absent. -/
def setTableList : List (String × Table) → String → Table → List (String × Table)
  | [], n, t => [(n, t)]
  | p :: ps, n, t => if p.1 = n then (n, t) :: ps else p :: setTableList ps n t

/-- Look a table up by name. -/
def getTableList : List (String × Table) → String → Option Table
  | [], _ => none
  | p :: ps, n => if p.1 = n then some p.2 else getTableList ps n

/-- The shared storage connection of the registry: open flag plus the tables
living in the database file. -/
structure DB where
  connOpen : Bool
  tables : List (String × Table)
deriving DecidableEq, Repr

def DB.getTable (db : DB) (n : String) : Option Table :=
  getTableList db.tables n

def DB.setTable (db : DB) (n : String) (t : Table) : DB :=
  DB.mk db.connOpen (setTableList db.tables n t)

/-- The Queue struct of queue.go minus the shared client (passed
explicitly): table name, removeOnComplete option, closed flag. -/
structure Queue where
  tableName : String
  removeOnComplete : Bool
  closed : Bool
deriving DecidableEq, Repr

/-- Storage-fault oracle for one operation: whether Begin, the Exec(s)
and Commit succeed at the storage layer. -/
structure TxFate where
  beginOk : Bool
  execOk : Bool
  commitOk : Bool
deriving DecidableEq, Repr

/-- Healthy storage: every transaction step succeeds. -/
def fateOk : TxFate := TxFate.mk true true true

/-- Begin succeeds iff the shared connection is open and the oracle
lets it. -/
def TxFate.beginOn (f : TxFate) (db : DB) : Bool := db.connOpen && f.beginOk

/-- Rows whose status column equals pending. -/
def pendingRows (rows : List Row) : List Row :=
  rows.filter (fun r => decide (r.status = Status.pending))

/-- Selection key of the plain queue: ORDER BY created_at ASC, ties by
rowid (index scan order). -/
def fifoLe (a b : Row) : Prop :=
  a.created_at < b.created_at ∨ (a.created_at = b.created_at ∧ a.id ≤ b.id)

instance (a b : Row) : Decidable (fifoLe a b) := by
  unfold fifoLe
  exact inferInstance

/-- Selection key of the priority queue: ORDER BY priority ASC,
created_at ASC, ties by rowid. -/
def prioLe (a b : Row) : Prop :=
  a.priority < b.priority ∨ (a.priority = b.priority ∧ fifoLe a b)

instance (a b : Row) : Decidable (prioLe a b) := by
  unfold prioLe
  exact inferInstance

/-- Minimum of a row list under a decidable order, preferring the
earlier row on ties (SELECT ... ORDER BY ... LIMIT 1). -/
def minBy (le : Row → Row → Prop) [DecidableRel le] : List Row → Option Row
  | [] => none
  | r :: rs =>
    match minBy le rs with
    | none => some r
    | some m => if le m r then some m else some r

/-- Row returned by the dequeue SELECT of the plain queue. -/
def selectFifo (t : Table) : Option Row :=
  minBy fifoLe (pendingRows t.rows)

/-- Row returned by the dequeue SELECT of the priority queue. -/
def selectPrio (t : Table) : Option Row :=
  minBy prioLe (pendingRows t.rows)

/-- INSERT of the plain Enqueue: data, status pending, ack 0,
created_at = updated_at = now; ack_id left NULL, priority defaulted. -/
def enqueueRow (t : Table) (payload : List Nat) (now : Nat) : Table :=
  Table.mk (t.rows ++ [Row.mk t.nextId payload Status.pending none false now now 0])
    (t.nextId + 1) t.hasPriority

/-- UPDATE ... WHERE id = i. -/
def updateRow (t : Table) (i : Nat) (upd : Row → Row) : Table :=
  Table.mk (t.rows.map (fun r => if r.id = i then upd r else r)) t.nextId t.hasPriority

/-- DELETE FROM ... WHERE id = i. -/
def deleteRow (t : Table) (i : Nat) : Table :=
  Table.mk (t.rows.filter (fun r => decide (¬ r.id = i))) t.nextId t.hasPriority

/-- Queue.Enqueue: closed check, begin, INSERT, commit; false with no
change on any failure. -/
def Queue.enqueue (q : Queue) (db : DB) (f : TxFate) (payload : List Nat) (now : Nat) :
    DB × Bool :=
  if q.closed then (db, false)
  else if ¬ f.beginOn db then (db, false)
  else
    match db.getTable q.tableName with
    | none => (db, false)
    | some t =>
      if ¬ f.execOk then (db, false)
      else if ¬ f.commitOk then (db, false)
      else (db.setTable q.tableName (enqueueRow t payload now), true)

/-- Result of dequeueInternal: still the same connection, the payload
when found, the success flag, and the ack id string. -/
structure DeqResult where
  db : DB
  item : Option (List Nat)
  success : Bool
  ackID : String
deriving DecidableEq, Repr

/-- Queue.dequeueInternal of queue.go: select the fifo-minimal pending
row; with ack, reuse its stored ack_id when non-empty else take the
fresh token and move it to processing; without ack, delete it. -/
def Queue.dequeueInternal (q : Queue) (db : DB) (f : TxFate) (withAckId : Bool)
    (freshToken : String) (now : Nat) : DeqResult :=
  if q.closed then DeqResult.mk db none false ""
  else if ¬ f.beginOn db then DeqResult.mk db none false ""
  else
    match db.getTable q.tableName with
    | none => DeqResult.mk db none false ""
    | some t =>
      match selectFifo t with
      | none => DeqResult.mk db none false ""
      | some r =>
        let stored : String := match r.ack_id with | some s => s | none => ""
        if withAckId then
          let ackID := if stored = "" then freshToken else stored
          if ¬ f.execOk then DeqResult.mk db none false ""
          else if ¬ f.commitOk then DeqResult.mk db none false ""
          else
            DeqResult.mk
              (db.setTable q.tableName (updateRow t r.id (fun row =>
                Row.mk row.id row.data Status.processing (some ackID) row.ack
                  row.created_at now row.priority)))
              (some r.data) true ackID
        else
          if ¬ f.execOk then DeqResult.mk db none false ""
          else if ¬ f.commitOk then DeqResult.mk db none false ""
          else
            DeqResult.mk (db.setTable q.tableName (deleteRow t r.id))
              (some r.data) true stored

/-- Queue.Acknowledge of queue.go: no closed check; DELETE (or UPDATE
to completed with ack=1) WHERE ack_id = token; false when zero rows are
affected, with rollback leaving the table unchanged. -/
def Queue.acknowledge (q : Queue) (db : DB) (f : TxFate) (token : String) (now : Nat) :
    DB × Bool :=
  if ¬ f.beginOn db then (db, false)
  else
    match db.getTable q.tableName with
    | none => (db, false)
    | some t =>
      if ¬ f.execOk then (db, false)
      else if (t.rows.filter (fun r => decide (r.ack_id = some token))).length = 0 then
        (db, false)
      else if ¬ f.commitOk then (db, false)
      else if q.removeOnComplete then
        (db.setTable q.tableName
          (Table.mk (t.rows.filter (fun r => decide (¬ r.ack_id = some token)))
            t.nextId t.hasPriority), true)
      else
        (db.setTable q.tableName
          (Table.mk (t.rows.map (fun r =>
            if r.ack_id = some token then
              Row.mk r.id r.data Status.completed r.ack_id true r.created_at now r.priority
            else r)) t.nextId t.hasPriority), true)

/-- UPDATE of RequeueNoAckRows: every processing row with ack = 0
reverts to pending with a refreshed updated_at; all others kept. -/
def requeueRows (rows : List Row) (now : Nat) : List Row :=
  rows.map (fun r =>
    if r.status = Status.processing ∧ r.ack = false then
      Row.mk r.id r.data Status.pending r.ack_id r.ack r.created_at now r.priority
    else r)

/-- Queue.RequeueNoAckRows of queue.go.  The source never checks the
error of client.Begin and unconditionally calls tx.Exec on the returned
transaction: when Begin fails the transaction is nil and the call
dereferences it — modelled as `none` (a runtime panic).  The Exec error
is overwritten by the Commit error, so a failed Exec still commits an
empty transaction and the function returns with the table unchanged. -/
def Queue.requeueNoAckRows (q : Queue) (db : DB) (f : TxFate) (now : Nat) : Option DB :=
  if ¬ f.beginOn db then none
  else
    match db.getTable q.tableName with
    | none => some db
    | some t =>
      if ¬ f.execOk then some db
      else if ¬ f.commitOk then some db
      else some (db.setTable q.tableName (Table.mk (requeueRows t.rows now) t.nextId t.hasPriority))

/-- Queue.Len: count of pending rows; 0 when the query errors. -/
def Queue.len (q : Queue) (db : DB) : Nat :=
  if ¬ db.connOpen then 0
  else
    match db.getTable q.tableName with
    | none => 0
    | some t => (pendingRows t.rows).length

/-- Insertion into a fifo-sorted list (ORDER BY created_at ASC). -/
def insertSorted (r : Row) : List Row → List Row
  | [] => [r]
  | x :: xs => if fifoLe r x then r :: x :: xs else x :: insertSorted r xs

/-- Sort rows by the fifo key. -/
def sortFifo : List Row → List Row
  | [] => []
  | r :: rs => insertSorted r (sortFifo rs)

/-- Queue.Values: payloads of all pending rows in dequeue order. -/
def Queue.values (q : Queue) (db : DB) : List (List Nat) :=
  if ¬ db.connOpen then []
  else
    match db.getTable q.tableName with
    | none => []
    | some t => (sortFifo (pendingRows t.rows)).map (fun r => r.data)

/-- Queue.Purge: no closed check; DELETE FROM table in one
transaction, silently returning with no change on any failure. -/
def Queue.purge (q : Queue) (db : DB) (f : TxFate) : DB :=
  if ¬ f.beginOn db then db
  else
    match db.getTable q.tableName with
    | none => db
    | some t =>
      if ¬ f.execOk then db
      else if ¬ f.commitOk then db
      else db.setTable q.tableName (Table.mk [] t.nextId t.hasPriority)

/-- Queue.Close: sets the closed flag and returns a nil error, nothing
else (the shared connection and all rows are untouched). -/
def Queue.close (q : Queue) : Queue × Option String :=
  (Queue.mk q.tableName q.removeOnComplete true, none)

/-- Queue.initTable: CREATE TABLE IF NOT EXISTS plus indexes in a
single Exec; an existing table is left as is, the statement errors when
the connection is closed or the storage exec fails. -/
def initTable (db : DB) (n : String) (f : TxFate) : Except String DB :=
  if ¬ (db.connOpen && f.execOk) then Except.error "exec failed"
  else
    match db.getTable n with
    | some _ => Except.ok db
    | none => Except.ok (db.setTable n emptyTable)

/-- Outcome of newQueue / newPriorityQueue: a ready engine with the
resulting connection state, a creation error with the resulting
connection state, or a runtime panic. -/
inductive CreateResult where
  | ok : Queue → DB → CreateResult
  | err : String → DB → CreateResult
  | panicked : CreateResult
deriving DecidableEq, Repr

/-- newQueue of queue.go: build the engine with the option applied,
initTable (on failure: db.Close() — the SHARED connection — and return
the error), then RequeueNoAckRows (which panics when Begin fails). -/
def newQueue (db : DB) (n : String) (roc : Bool) (initF reqF : TxFate) (now : Nat) :
    CreateResult :=
  let q := Queue.mk n roc false
  match initTable db n initF with
  | Except.error e => CreateResult.err e (DB.mk false db.tables)
  | Except.ok db1 =>
    match q.requeueNoAckRows db1 reqF now with
    | none => CreateResult.panicked
    | some db2 => CreateResult.ok q db2

/-- Column list of a queue table in declaration order, as reported by
PRAGMA table_info. -/
def tableColumns (t : Table) : List String :=
  ["id", "data", "status", "ack_id", "ack", "created_at", "updated_at"] ++
    (if t.hasPriority then ["priority"] else [])

/-- initPriorityColumn of priority_queue.go.  The PRAGMA table_info
result is read with QueryRow, so only the FIRST returned row — the
first column of the table — is scanned into name; the ALTER TABLE ADD
COLUMN runs whenever that first column is not literally "priority", and
the storage engine rejects it with a duplicate-column error when the
column already exists. -/
def initPriorityColumn (t : Table) : Except String Table :=
  let scanned := (tableColumns t).head?
  let isPriority := match scanned with | some n => decide (n = "priority") | none => false
  if isPriority then Except.ok t
  else if t.hasPriority then Except.error "duplicate column name: priority"
  else Except.ok (Table.mk t.rows t.nextId true)

/-- newPriorityQueue of priority_queue.go: the base newQueue, then
initPriorityColumn; a priority-column failure is returned as a creation
error without touching the connection flag. -/
def newPriorityQueue (db : DB) (n : String) (roc : Bool) (initF reqF : TxFate) (now : Nat) :
    CreateResult :=
  match newQueue db n roc initF reqF now with
  | CreateResult.err e db1 => CreateResult.err e db1
  | CreateResult.panicked => CreateResult.panicked
  | CreateResult.ok q db1 =>
    match db1.getTable n with
    | none => CreateResult.err "no such table" db1
    | some t =>
      match initPriorityColumn t with
      | Except.error e => CreateResult.err e db1
      | Except.ok t2 => CreateResult.ok q (db1.setTable n t2)

/-- PriorityQueue.Enqueue: INSERT with an explicit priority; ack_id and
ack take their column defaults. -/
def PriorityQueue.enqueue (q : Queue) (db : DB) (f : TxFate) (payload : List Nat)
    (priority : Int) (now : Nat) : DB × Bool :=
  if q.closed then (db, false)
  else if ¬ f.beginOn db then (db, false)
  else
    match db.getTable q.tableName with
    | none => (db, false)
    | some t =>
      if ¬ f.execOk then (db, false)
      else if ¬ f.commitOk then (db, false)
      else
        (db.setTable q.tableName
          (Table.mk (t.rows ++ [Row.mk t.nextId payload Status.pending none false now now priority])
            (t.nextId + 1) t.hasPriority), true)

/-- PriorityQueue.dequeueInternal: selects by (priority, created_at)
and, unlike the base engine, does not read the stored ack_id — the ack
path always takes the fresh cuid. -/
def PriorityQueue.dequeueInternal (q : Queue) (db : DB) (f : TxFate) (withAckId : Bool)
    (freshToken : String) (now : Nat) : DeqResult :=
  if q.closed then DeqResult.mk db none false ""
  else if ¬ f.beginOn db then DeqResult.mk db none false ""
  else
    match db.getTable q.tableName with
    | none => DeqResult.mk db none false ""
    | some t =>
      match selectPrio t with
      | none => DeqResult.mk db none false ""
      | some r =>
        if withAckId then
          if ¬ f.execOk then DeqResult.mk db none false ""
          else if ¬ f.commitOk then DeqResult.mk db none false ""
          else
            DeqResult.mk
              (db.setTable q.tableName (updateRow t r.id (fun row =>
                Row.mk row.id row.data Status.processing (some freshToken) row.ack
                  row.created_at now row.priority)))
              (some r.data) true freshToken
        else
          if ¬ f.execOk then DeqResult.mk db none false ""
          else if ¬ f.commitOk then DeqResult.mk db none false ""
          else
            DeqResult.mk (db.setTable q.tableName (deleteRow t r.id))
              (some r.data) true ""

/-- Run a sequence of plain Enqueue calls, one timestamp per call,
threading the connection through. -/
def enqueueAllFrom (q : Queue) (f : TxFate) : DB → List (List Nat × Nat) → DB
  | db, [] => db
  | db, (p, n) :: rest => enqueueAllFrom q f (q.enqueue db f p n).1 rest

/-- Rows produced by successive enqueues of the given payloads and
timestamps, ids assigned from the given AUTOINCREMENT value. -/
def newRows : List (List Nat × Nat) → Nat → List Row
  | [], _ => []
  | (p, n) :: rest, k => Row.mk k p Status.pending none false n n 0 :: newRows rest (k + 1)

/-- Run n plain Dequeue calls, collecting the payload returned by each. -/
def dequeueList (q : Queue) (f : TxFate) : Nat → DB → List (Option (List Nat))
  | 0, _ => []
  | n + 1, db =>
    (q.dequeueInternal db f false "" 0).item ::
      dequeueList q f n (q.dequeueInternal db f false "" 0).db

/- Basic lemmas about the table map and the selection functions. -/

theorem getTableList_setTableList (l : List (String × Table)) (n : String) (t : Table) :
    getTableList (setTableList l n t) n = some t := by
  induction l with
  | nil => simp [setTableList, getTableList]
  | cons p ps ih =>
    by_cases h : p.1 = n
    · simp [setTableList, getTableList, h]
    · simp [setTableList, getTableList, h, ih]

theorem DB.getTable_setTable (db : DB) (n : String) (t : Table) :
    (db.setTable n t).getTable n = some t :=
  getTableList_setTableList db.tables n t

theorem DB.connOpen_setTable (db : DB) (n : String) (t : Table) :
    (db.setTable n t).connOpen = db.connOpen := rfl

theorem fifoLe_total (a b : Row) : fifoLe a b ∨ fifoLe b a := by
  unfold fifoLe
  omega

theorem fifoLe_trans (a b c : Row) (h1 : fifoLe a b) (h2 : fifoLe b c) : fifoLe a c := by
  unfold fifoLe at *
  omega

theorem prioLe_total (a b : Row) : prioLe a b ∨ prioLe b a := by
  unfold prioLe fifoLe
  omega

theorem prioLe_trans (a b c : Row) (h1 : prioLe a b) (h2 : prioLe b c) : prioLe a c := by
  unfold prioLe fifoLe at *
  omega

theorem minBy_mem (le : Row → Row → Prop) [DecidableRel le] (l : List Row) :
    ∀ m, minBy le l = some m → m ∈ l := by
  induction l with
  | nil => intro m h; simp [minBy] at h
  | cons r rs ih =>
    intro m h
    unfold minBy at h
    cases hrec : minBy le rs with
    | none =>
      rw [hrec] at h
      simp at h
      simp [h]
    | some m' =>
      rw [hrec] at h
      by_cases hle : le m' r
      · simp [hle] at h
        exact List.mem_cons_of_mem r (h ▸ ih m' hrec)
      · simp [hle] at h
        simp [h]

theorem minBy_eq_none (le : Row → Row → Prop) [DecidableRel le] (l : List Row) :
    minBy le l = none ↔ l = [] := by
  cases l with
  | nil => simp [minBy]
  | cons r rs =>
    unfold minBy
    cases minBy le rs with
    | none => simp
    | some m =>
      by_cases hle : le m r <;> simp [hle]

theorem minBy_le_all (le : Row → Row → Prop) [DecidableRel le]
    (htot : ∀ a b, le a b ∨ le b a) (htrans : ∀ a b c, le a b → le b c → le a c)
    (l : List Row) : ∀ m, minBy le l = some m →
    ∀ x ∈ l, le m x := by
  induction l with
  | nil => intro m h; simp [minBy] at h
  | cons r rs ih =>
    intro m h
    unfold minBy at h
    cases hrec : minBy le rs with
    | none =>
      rw [hrec] at h
      simp at h
      have hnil : rs = [] := (minBy_eq_none le rs).mp hrec
      intro x hx
      rw [hnil] at hx
      simp at hx
      rw [hx, ← h]
      rcases htot r r with hh | hh <;> exact hh
    | some m' =>
      rw [hrec] at h
      by_cases hle : le m' r
      · simp [hle] at h
        intro x hx
        rcases List.mem_cons.mp hx with hx | hx
        · rw [hx, ← h]; exact hle
        · exact h ▸ ih m' hrec x hx
      · simp [hle] at h
        have hrm : le r m' := by
          rcases htot r m' with hh | hh
          · exact hh
          · exact absurd hh hle
        intro x hx
        rcases List.mem_cons.mp hx with hx | hx
        · rw [hx, ← h]
          rcases htot r r with hh | hh <;> exact hh
        · rw [← h]
          exact htrans _ _ _ hrm (ih m' hrec x hx)

theorem minBy_head (le : Row → Row → Prop) [DecidableRel le] (r : Row) (rs : List Row)
    (h : ∀ x ∈ rs, ¬ le x r) : minBy le (r :: rs) = some r := by
  unfold minBy
  cases hrec : minBy le rs with
  | none => rfl
  | some m =>
    have hm : m ∈ rs := minBy_mem le rs m hrec
    simp [h m hm]

/-- C1: a priority queue can be created once against a fresh location,
but creating it a second time against the table that already carries
the priority column fails: initPriorityColumn scans only the first
column reported by PRAGMA table_info ("id"), concludes the priority
column is missing, and the ALTER TABLE is rejected as a duplicate
column.  The second run errors instead of returning a ready engine. -/
theorem c1_second_creation_fails :
    newPriorityQueue (DB.mk true []) "jobs" true fateOk fateOk 0 =
      CreateResult.ok (Queue.mk "jobs" true false)
        (DB.mk true [("jobs", Table.mk [] 1 true)]) ∧
    newPriorityQueue (DB.mk true [("jobs", Table.mk [] 1 true)]) "jobs" true fateOk fateOk 1 =
      CreateResult.err "duplicate column name: priority"
        (DB.mk true [("jobs", Table.mk [] 1 true)]) := by
  decide

/-- C2 counterexample: when table creation fails during newQueue, the
error is returned, but the shared connection has been closed by the
failing newQueue, so a subsequent NewQueue for a different name on the
same registry fails even though its own storage steps are all healthy —
contradicting the claim that another queue can still be created. -/
theorem c2_counterexample :
    newQueue (DB.mk true []) "a" true (TxFate.mk true false true) fateOk 0 =
      CreateResult.err "exec failed" (DB.mk false []) ∧
    newQueue (DB.mk false []) "b" true fateOk fateOk 0 =
      CreateResult.err "exec failed" (DB.mk false []) := by
  decide

/-- C2 amended: if table creation fails during queue creation the
error is returned to the caller, but newQueue closes the shared
storage connection of the Registry, so every subsequent NewQueue or
NewPriorityQueue on the same Registry fails as well. -/
theorem c2_init_failure_closes_connection (db : DB) (n : String) (roc : Bool)
    (initF reqF : TxFate) (now : Nat)
    (h : (db.connOpen && initF.execOk) = false) :
    newQueue db n roc initF reqF now = CreateResult.err "exec failed" (DB.mk false db.tables) ∧
    (∀ (n2 : String) (roc2 : Bool) (f2 g2 : TxFate) (now2 : Nat),
      newQueue (DB.mk false db.tables) n2 roc2 f2 g2 now2 =
        CreateResult.err "exec failed" (DB.mk false db.tables)) ∧
    (∀ (n2 : String) (roc2 : Bool) (f2 g2 : TxFate) (now2 : Nat),
      newPriorityQueue (DB.mk false db.tables) n2 roc2 f2 g2 now2 =
        CreateResult.err "exec failed" (DB.mk false db.tables)) := by
  refine ⟨?_, ?_, ?_⟩
  · simp [newQueue, initTable, h]
  · intro n2 roc2 f2 g2 now2
    simp [newQueue, initTable]
  · intro n2 roc2 f2 g2 now2
    simp [newPriorityQueue, newQueue, initTable]

/-- C2 amended theorem witness at a concrete failing creation. -/
theorem c2_init_failure_closes_connection_witness :
    newQueue (DB.mk true []) "a" true (TxFate.mk true false true) fateOk 0 =
      CreateResult.err "exec failed" (DB.mk false []) ∧
    (∀ (n2 : String) (roc2 : Bool) (f2 g2 : TxFate) (now2 : Nat),
      newQueue (DB.mk false []) n2 roc2 f2 g2 now2 =
        CreateResult.err "exec failed" (DB.mk false [])) ∧
    (∀ (n2 : String) (roc2 : Bool) (f2 g2 : TxFate) (now2 : Nat),
      newPriorityQueue (DB.mk false []) n2 roc2 f2 g2 now2 =
        CreateResult.err "exec failed" (DB.mk false [])) :=
  c2_init_failure_closes_connection (DB.mk true []) "a" true
    (TxFate.mk true false true) fateOk 0 (by decide)

/-- C4 counterexample: Acknowledge performs no closed-flag check, so on
a closed engine it still reaches storage — with a valid token it
returns true and deletes the matching row, contradicting the claim that
every state-changing operation fails fast with no row changed. -/
theorem c4_counterexample :
    Queue.acknowledge (Queue.mk "jobs" true true)
      (DB.mk true [("jobs",
        Table.mk [Row.mk 1 [7] Status.processing (some "tok") false 0 0 0] 2 false)])
      fateOk "tok" 5 =
      (DB.mk true [("jobs", Table.mk [] 2 false)], true) := by
  decide

/-- C4 amended: after Close, Enqueue, Dequeue and DequeueWithAck (on
both engines) fail fast, returning a false result with the connection
untouched; but Acknowledge, Purge and RequeueNoAckRows are not gated by
the closed flag and behave exactly as on an open engine. -/
theorem c4_closed_fast_fail (q : Queue) (db : DB) (f : TxFate) (p : List Nat)
    (pr : Int) (w : Bool) (fresh tok : String) (now : Nat)
    (hq : q.closed = true) :
    Queue.enqueue q db f p now = (db, false) ∧
    PriorityQueue.enqueue q db f p pr now = (db, false) ∧
    Queue.dequeueInternal q db f w fresh now = DeqResult.mk db none false "" ∧
    PriorityQueue.dequeueInternal q db f w fresh now = DeqResult.mk db none false "" ∧
    Queue.acknowledge q db f tok now =
      Queue.acknowledge (Queue.mk q.tableName q.removeOnComplete false) db f tok now ∧
    Queue.purge q db f = Queue.purge (Queue.mk q.tableName q.removeOnComplete false) db f ∧
    Queue.requeueNoAckRows q db f now =
      Queue.requeueNoAckRows (Queue.mk q.tableName q.removeOnComplete false) db f now := by
  refine ⟨?_, ?_, ?_, ?_, rfl, rfl, rfl⟩
  · simp [Queue.enqueue, hq]
  · simp [PriorityQueue.enqueue, hq]
  · simp [Queue.dequeueInternal, hq]
  · simp [PriorityQueue.dequeueInternal, hq]

/-- C4 amended theorem witness at a concrete closed engine. -/
theorem c4_closed_fast_fail_witness :
    Queue.enqueue (Queue.mk "jobs" true true) (DB.mk true []) fateOk [1] 0 =
      (DB.mk true [], false) ∧
    PriorityQueue.enqueue (Queue.mk "jobs" true true) (DB.mk true []) fateOk [1] 2 0 =
      (DB.mk true [], false) ∧
    Queue.dequeueInternal (Queue.mk "jobs" true true) (DB.mk true []) fateOk true "t" 0 =
      DeqResult.mk (DB.mk true []) none false "" ∧
    PriorityQueue.dequeueInternal (Queue.mk "jobs" true true) (DB.mk true []) fateOk true "t" 0 =
      DeqResult.mk (DB.mk true []) none false "" ∧
    Queue.acknowledge (Queue.mk "jobs" true true) (DB.mk true []) fateOk "t" 0 =
      Queue.acknowledge (Queue.mk "jobs" true false) (DB.mk true []) fateOk "t" 0 ∧
    Queue.purge (Queue.mk "jobs" true true) (DB.mk true []) fateOk =
      Queue.purge (Queue.mk "jobs" true false) (DB.mk true []) fateOk ∧
    Queue.requeueNoAckRows (Queue.mk "jobs" true true) (DB.mk true []) fateOk 0 =
      Queue.requeueNoAckRows (Queue.mk "jobs" true false) (DB.mk true []) fateOk 0 :=
  c4_closed_fast_fail (Queue.mk "jobs" true true) (DB.mk true []) fateOk [1] 2 true
    "t" "t" 0 rfl

/-- C5 counterexample: on a priority queue whose only pending row
already stores the ack token "old" (a claimed row requeued by the
recovery pass), DequeueWithAckId returns the freshly generated token,
not the stored one — the overriding dequeueInternal of the priority engine
never reads ack_id.  This contradicts the claim for the priority
engine. -/
theorem c5_counterexample :
    PriorityQueue.dequeueInternal (Queue.mk "jobs" true false)
      (DB.mk true [("jobs",
        Table.mk [Row.mk 1 [7] Status.pending (some "old") false 0 0 0] 2 true)])
      fateOk true "fresh" 9 =
      DeqResult.mk
        (DB.mk true [("jobs",
          Table.mk [Row.mk 1 [7] Status.processing (some "fresh") false 0 9 0] 2 true)])
        (some [7]) true "fresh" ∧
    ¬ "fresh" = "old" := by
  decide

/-- C5 amended: the plain Queue engine returns the already-stored token
when it claims a pending row whose ack_token is set, but the Priority
Queue engine overriding dequeueInternal always issues the fresh
token, overwriting the stored one. -/
theorem c5_token_reuse (q : Queue) (db : DB) (t : Table) (r : Row) (s fresh : String)
    (now : Nat)
    (hq : q.closed = false) (hconn : db.connOpen = true)
    (ht : db.getTable q.tableName = some t)
    (hsel : selectFifo t = some r) (hack : r.ack_id = some s) (hs : ¬ s = "") :
    (Queue.dequeueInternal q db fateOk true fresh now).ackID = s ∧
    (Queue.dequeueInternal q db fateOk true fresh now).success = true ∧
    (∀ r2, selectPrio t = some r2 →
      (PriorityQueue.dequeueInternal q db fateOk true fresh now).ackID = fresh ∧
      (PriorityQueue.dequeueInternal q db fateOk true fresh now).success = true) := by
  refine ⟨?_, ?_, ?_⟩
  · simp [Queue.dequeueInternal, TxFate.beginOn, fateOk, hq, hconn, ht, hsel, hack, hs]
  · simp [Queue.dequeueInternal, TxFate.beginOn, fateOk, hq, hconn, ht, hsel, hack, hs]
  · intro r2 hsel2
    constructor
    · simp [PriorityQueue.dequeueInternal, TxFate.beginOn, fateOk, hq, hconn, ht, hsel2]
    · simp [PriorityQueue.dequeueInternal, TxFate.beginOn, fateOk, hq, hconn, ht, hsel2]

/-- C5 amended theorem witness at a concrete requeued row. -/
theorem c5_token_reuse_witness :
    (Queue.dequeueInternal (Queue.mk "jobs" true false)
      (DB.mk true [("jobs",
        Table.mk [Row.mk 1 [7] Status.pending (some "old") false 0 0 0] 2 true)])
      fateOk true "fresh" 9).ackID = "old" ∧
    (Queue.dequeueInternal (Queue.mk "jobs" true false)
      (DB.mk true [("jobs",
        Table.mk [Row.mk 1 [7] Status.pending (some "old") false 0 0 0] 2 true)])
      fateOk true "fresh" 9).success = true ∧
    (∀ r2, selectPrio (Table.mk [Row.mk 1 [7] Status.pending (some "old") false 0 0 0] 2 true) = some r2 →
      (PriorityQueue.dequeueInternal (Queue.mk "jobs" true false)
        (DB.mk true [("jobs",
          Table.mk [Row.mk 1 [7] Status.pending (some "old") false 0 0 0] 2 true)])
        fateOk true "fresh" 9).ackID = "fresh" ∧
      (PriorityQueue.dequeueInternal (Queue.mk "jobs" true false)
        (DB.mk true [("jobs",
          Table.mk [Row.mk 1 [7] Status.pending (some "old") false 0 0 0] 2 true)])
        fateOk true "fresh" 9).success = true) :=
  c5_token_reuse (Queue.mk "jobs" true false)
    (DB.mk true [("jobs",
      Table.mk [Row.mk 1 [7] Status.pending (some "old") false 0 0 0] 2 true)])
    (Table.mk [Row.mk 1 [7] Status.pending (some "old") false 0 0 0] 2 true)
    (Row.mk 1 [7] Status.pending (some "old") false 0 0 0) "old" "fresh" 9
    rfl rfl (by decide) (by decide) rfl (by decide)

/-- C6: RequeueOrphans does not satisfy the no-panic claim: the source
never checks the error of client.Begin, so when Begin fails (for
example on a closed connection) the nil transaction is dereferenced by
tx.Exec — modelled as the `none` (panic) outcome — instead of rolling
back and surfacing a negative result. -/
theorem c6_requeue_panics_on_begin_failure (q : Queue) (db : DB) (f : TxFate) (now : Nat)
    (h : f.beginOn db = false) :
    Queue.requeueNoAckRows q db f now = none := by
  simp [Queue.requeueNoAckRows, h]

/- Helper lemmas for the Acknowledge claims. -/

theorem ack_no_match (q : Queue) (db : DB) (f : TxFate) (tok : String) (now : Nat)
    (h : ∀ t, db.getTable q.tableName = some t →
      (t.rows.filter (fun r => decide (r.ack_id = some tok))).length = 0) :
    Queue.acknowledge q db f tok now = (db, false) := by
  unfold Queue.acknowledge
  by_cases hb : f.beginOn db = true
  · simp only [hb]
    cases hg : db.getTable q.tableName with
    | none => simp
    | some t =>
      by_cases he : f.execOk = true
      · simp [he, h t hg]
      · simp [he]
  · simp [hb]

theorem filter_not_filter_ack (l : List Row) (tok : String) :
    ((l.filter (fun r => decide (¬ r.ack_id = some tok))).filter
      (fun r => decide (r.ack_id = some tok))).length = 0 := by
  induction l with
  | nil => rfl
  | cons r rs ih =>
    by_cases h : r.ack_id = some tok
    · simp [h, ih]
    · simp [h, ih]

theorem filter_ack_map (l : List Row) (tok : String) (now : Nat) :
    ((l.map (fun r =>
      if r.ack_id = some tok then
        Row.mk r.id r.data Status.completed r.ack_id true r.created_at now r.priority
      else r)).filter (fun r => decide (r.ack_id = some tok))).length =
    (l.filter (fun r => decide (r.ack_id = some tok))).length := by
  induction l with
  | nil => rfl
  | cons r rs ih =>
    by_cases h : r.ack_id = some tok
    · simp [h, ih]
    · simp [h, ih]

/-- C3 counterexample: with removeOnComplete = false (retention
enabled), a second Acknowledge with the same token succeeds again — the
retained completed row still matches WHERE ack_id = token, so the
UPDATE reports an affected row and the call returns true, contradicting
the claim that the second call returns false in both retention
modes. -/
theorem c3_counterexample :
    (Queue.acknowledge (Queue.mk "jobs" false false)
      (DB.mk true [("jobs",
        Table.mk [Row.mk 1 [7] Status.processing (some "tok") false 0 0 0] 2 false)])
      fateOk "tok" 5).2 = true ∧
    (Queue.acknowledge (Queue.mk "jobs" false false)
      (Queue.acknowledge (Queue.mk "jobs" false false)
        (DB.mk true [("jobs",
          Table.mk [Row.mk 1 [7] Status.processing (some "tok") false 0 0 0] 2 false)])
        fateOk "tok" 5).1
      fateOk "tok" 6).2 = true := by
  decide

/-- C3 amended: the first Acknowledge with a matching token succeeds in
both retention modes; with removeOnComplete = true the row is deleted
and every second Acknowledge with that token fails, but with
removeOnComplete = false the retained completed row still matches and a
second Acknowledge succeeds again.  An unmatched token always fails and
leaves the connection unchanged. -/
theorem c3_ack_once (q : Queue) (db : DB) (t : Table) (tok : String) (now now2 : Nat)
    (hconn : db.connOpen = true)
    (ht : db.getTable q.tableName = some t)
    (hmatch : ¬ (t.rows.filter (fun r => decide (r.ack_id = some tok))).length = 0) :
    (q.removeOnComplete = true →
      (Queue.acknowledge q db fateOk tok now).2 = true ∧
      (∀ (f2 : TxFate) (n2 : Nat),
        Queue.acknowledge q (Queue.acknowledge q db fateOk tok now).1 f2 tok n2 =
          ((Queue.acknowledge q db fateOk tok now).1, false))) ∧
    (q.removeOnComplete = false →
      (Queue.acknowledge q db fateOk tok now).2 = true ∧
      (Queue.acknowledge q (Queue.acknowledge q db fateOk tok now).1 fateOk tok now2).2 = true) ∧
    (∀ (tok2 : String),
      (t.rows.filter (fun r => decide (r.ack_id = some tok2))).length = 0 →
      ∀ (f3 : TxFate) (n3 : Nat), Queue.acknowledge q db f3 tok2 n3 = (db, false)) := by
  refine ⟨?_, ?_, ?_⟩
  · intro hroc
    have hfirst : Queue.acknowledge q db fateOk tok now =
        (db.setTable q.tableName
          (Table.mk (t.rows.filter (fun r => decide (¬ r.ack_id = some tok)))
            t.nextId t.hasPriority), true) := by
      simp [Queue.acknowledge, TxFate.beginOn, fateOk, hconn, ht, hmatch, hroc]
    rw [hfirst]
    refine ⟨rfl, ?_⟩
    intro f2 n2
    apply ack_no_match
    intro t2 hg
    rw [DB.getTable_setTable] at hg
    cases hg
    exact filter_not_filter_ack t.rows tok
  · intro hroc
    have hfirst : Queue.acknowledge q db fateOk tok now =
        (db.setTable q.tableName
          (Table.mk (t.rows.map (fun r =>
            if r.ack_id = some tok then
              Row.mk r.id r.data Status.completed r.ack_id true r.created_at now r.priority
            else r)) t.nextId t.hasPriority), true) := by
      simp [Queue.acknowledge, TxFate.beginOn, fateOk, hconn, ht, hmatch, hroc]
    rw [hfirst]
    refine ⟨rfl, ?_⟩
    have hm2 : ¬ (((t.rows.map (fun r =>
        if r.ack_id = some tok then
          Row.mk r.id r.data Status.completed r.ack_id true r.created_at now r.priority
        else r))).filter (fun r => decide (r.ack_id = some tok))).length = 0 := by
      rw [filter_ack_map]
      exact hmatch
    simp [Queue.acknowledge, TxFate.beginOn, fateOk, DB.connOpen_setTable, hconn,
      DB.getTable_setTable, hm2, hroc]
  · intro tok2 hz f3 n3
    apply ack_no_match
    intro t2 hg
    rw [ht] at hg
    cases hg
    exact hz

/-- C3 amended theorem witness at a concrete remove-mode queue. -/
theorem c3_ack_once_witness :
    ((Queue.mk "jobs" true false).removeOnComplete = true →
      (Queue.acknowledge (Queue.mk "jobs" true false)
        (DB.mk true [("jobs",
          Table.mk [Row.mk 1 [7] Status.processing (some "tok") false 0 0 0] 2 false)])
        fateOk "tok" 5).2 = true ∧
      (∀ (f2 : TxFate) (n2 : Nat),
        Queue.acknowledge (Queue.mk "jobs" true false)
          (Queue.acknowledge (Queue.mk "jobs" true false)
            (DB.mk true [("jobs",
              Table.mk [Row.mk 1 [7] Status.processing (some "tok") false 0 0 0] 2 false)])
            fateOk "tok" 5).1 f2 "tok" n2 =
          ((Queue.acknowledge (Queue.mk "jobs" true false)
            (DB.mk true [("jobs",
              Table.mk [Row.mk 1 [7] Status.processing (some "tok") false 0 0 0] 2 false)])
            fateOk "tok" 5).1, false))) ∧
    ((Queue.mk "jobs" true false).removeOnComplete = false →
      (Queue.acknowledge (Queue.mk "jobs" true false)
        (DB.mk true [("jobs",
          Table.mk [Row.mk 1 [7] Status.processing (some "tok") false 0 0 0] 2 false)])
        fateOk "tok" 5).2 = true ∧
      (Queue.acknowledge (Queue.mk "jobs" true false)
        (Queue.acknowledge (Queue.mk "jobs" true false)
          (DB.mk true [("jobs",
            Table.mk [Row.mk 1 [7] Status.processing (some "tok") false 0 0 0] 2 false)])
          fateOk "tok" 5).1 fateOk "tok" 6).2 = true) ∧
    (∀ (tok2 : String),
      ((Table.mk [Row.mk 1 [7] Status.processing (some "tok") false 0 0 0] 2 false).rows.filter
        (fun r => decide (r.ack_id = some tok2))).length = 0 →
      ∀ (f3 : TxFate) (n3 : Nat),
        Queue.acknowledge (Queue.mk "jobs" true false)
          (DB.mk true [("jobs",
            Table.mk [Row.mk 1 [7] Status.processing (some "tok") false 0 0 0] 2 false)])
          f3 tok2 n3 =
        (DB.mk true [("jobs",
          Table.mk [Row.mk 1 [7] Status.processing (some "tok") false 0 0 0] 2 false)], false)) :=
  c3_ack_once (Queue.mk "jobs" true false)
    (DB.mk true [("jobs",
      Table.mk [Row.mk 1 [7] Status.processing (some "tok") false 0 0 0] 2 false)])
    (Table.mk [Row.mk 1 [7] Status.processing (some "tok") false 0 0 0] 2 false)
    "tok" 5 6 rfl rfl (by decide)

/-- C6 theorem witness: the panic outcome at a concrete begin failure. -/
theorem c6_requeue_panics_on_begin_failure_witness :
    Queue.requeueNoAckRows (Queue.mk "jobs" true false) (DB.mk true [])
      (TxFate.mk false true true) 0 = none :=
  c6_requeue_panics_on_begin_failure (Queue.mk "jobs" true false) (DB.mk true [])
    (TxFate.mk false true true) 0 rfl

theorem requeueRows_get (rows : List Row) (now : Nat) (i : Nat) (h1 : i < rows.length)
    (h2 : i < (requeueRows rows now).length) :
    (requeueRows rows now).get ⟨i, h2⟩ =
      (if (rows.get ⟨i, h1⟩).status = Status.processing ∧ (rows.get ⟨i, h1⟩).ack = false then
        Row.mk (rows.get ⟨i, h1⟩).id (rows.get ⟨i, h1⟩).data Status.pending
          (rows.get ⟨i, h1⟩).ack_id (rows.get ⟨i, h1⟩).ack (rows.get ⟨i, h1⟩).created_at now
          (rows.get ⟨i, h1⟩).priority
      else rows.get ⟨i, h1⟩) := by
  simp [requeueRows, List.get_eq_getElem, List.getElem_map]

/-- C9: the recovery pass run at initialization succeeds on a healthy
connection and rewrites exactly the rows with status processing and
ack = false — setting status to pending and updated_at to now while
keeping every other field — and leaves every other row unchanged;
consequently, if some row was claimed via the ack path and never
acknowledged, a Dequeue or DequeueWithAck on the recovered state
succeeds. -/
theorem c9_recovery_pass (q : Queue) (db : DB) (t : Table) (now : Nat)
    (hq : q.closed = false) (hconn : db.connOpen = true)
    (ht : db.getTable q.tableName = some t) :
    ∃ db', q.requeueNoAckRows db fateOk now = some db' ∧
      db'.getTable q.tableName =
        some (Table.mk (requeueRows t.rows now) t.nextId t.hasPriority) ∧
      (requeueRows t.rows now).length = t.rows.length ∧
      (∀ (i : Nat) (h1 : i < t.rows.length) (h2 : i < (requeueRows t.rows now).length),
        (((t.rows.get ⟨i, h1⟩).status = Status.processing ∧
            (t.rows.get ⟨i, h1⟩).ack = false) →
          (requeueRows t.rows now).get ⟨i, h2⟩ =
            Row.mk (t.rows.get ⟨i, h1⟩).id (t.rows.get ⟨i, h1⟩).data Status.pending
              (t.rows.get ⟨i, h1⟩).ack_id (t.rows.get ⟨i, h1⟩).ack
              (t.rows.get ⟨i, h1⟩).created_at now (t.rows.get ⟨i, h1⟩).priority) ∧
        (¬ ((t.rows.get ⟨i, h1⟩).status = Status.processing ∧
            (t.rows.get ⟨i, h1⟩).ack = false) →
          (requeueRows t.rows now).get ⟨i, h2⟩ = t.rows.get ⟨i, h1⟩)) ∧
      (∀ r ∈ t.rows, r.status = Status.processing → r.ack = false →
        ∀ (w : Bool) (fresh : String) (n2 : Nat),
          (Queue.dequeueInternal q db' fateOk w fresh n2).success = true) := by
  refine ⟨db.setTable q.tableName (Table.mk (requeueRows t.rows now) t.nextId t.hasPriority),
    ?_, DB.getTable_setTable db q.tableName _, ?_, ?_, ?_⟩
  · simp [Queue.requeueNoAckRows, TxFate.beginOn, fateOk, hconn, ht]
  · simp [requeueRows]
  · intro i h1 h2
    constructor
    · intro hcond
      rw [requeueRows_get t.rows now i h1 h2, if_pos hcond]
    · intro hcond
      rw [requeueRows_get t.rows now i h1 h2, if_neg hcond]
  · intro r hr hst hack w fresh n2
    have hmem : (Row.mk r.id r.data Status.pending r.ack_id r.ack r.created_at now r.priority) ∈
        requeueRows t.rows now := by
      unfold requeueRows
      refine List.mem_map.mpr ⟨r, hr, ?_⟩
      simp [hst, hack]
    have hpend : (Row.mk r.id r.data Status.pending r.ack_id r.ack r.created_at now r.priority) ∈
        pendingRows (requeueRows t.rows now) := by
      refine List.mem_filter.mpr ⟨hmem, ?_⟩
      simp
    have hne : pendingRows (requeueRows t.rows now) ≠ [] :=
      List.ne_nil_of_mem hpend
    cases hsel : selectFifo (Table.mk (requeueRows t.rows now) t.nextId t.hasPriority) with
    | none =>
      unfold selectFifo at hsel
      exact absurd ((minBy_eq_none fifoLe _).mp hsel) hne
    | some m =>
      cases w with
      | true =>
        simp [Queue.dequeueInternal, TxFate.beginOn, fateOk, hq, hconn,
          DB.getTable_setTable, DB.connOpen_setTable, hsel]
      | false =>
        simp [Queue.dequeueInternal, TxFate.beginOn, fateOk, hq, hconn,
          DB.getTable_setTable, DB.connOpen_setTable, hsel]

/-- C9 theorem witness at a concrete orphaned row. -/
theorem c9_recovery_pass_witness :
    ∃ db', Queue.requeueNoAckRows (Queue.mk "jobs" true false)
        (DB.mk true [("jobs",
          Table.mk [Row.mk 1 [7] Status.processing (some "tok") false 0 3 0] 2 false)])
        fateOk 9 = some db' ∧
      db'.getTable "jobs" =
        some (Table.mk
          (requeueRows [Row.mk 1 [7] Status.processing (some "tok") false 0 3 0] 9) 2 false) ∧
      (requeueRows [Row.mk 1 [7] Status.processing (some "tok") false 0 3 0] 9).length =
        [Row.mk 1 [7] Status.processing (some "tok") false 0 3 0].length ∧
      (∀ (i : Nat) (h1 : i < [Row.mk 1 [7] Status.processing (some "tok") false 0 3 0].length)
        (h2 : i <
          (requeueRows [Row.mk 1 [7] Status.processing (some "tok") false 0 3 0] 9).length),
        ((([Row.mk 1 [7] Status.processing (some "tok") false 0 3 0].get ⟨i, h1⟩).status =
              Status.processing ∧
            ([Row.mk 1 [7] Status.processing (some "tok") false 0 3 0].get ⟨i, h1⟩).ack = false) →
          (requeueRows [Row.mk 1 [7] Status.processing (some "tok") false 0 3 0] 9).get ⟨i, h2⟩ =
            Row.mk ([Row.mk 1 [7] Status.processing (some "tok") false 0 3 0].get ⟨i, h1⟩).id
              ([Row.mk 1 [7] Status.processing (some "tok") false 0 3 0].get ⟨i, h1⟩).data
              Status.pending
              ([Row.mk 1 [7] Status.processing (some "tok") false 0 3 0].get ⟨i, h1⟩).ack_id
              ([Row.mk 1 [7] Status.processing (some "tok") false 0 3 0].get ⟨i, h1⟩).ack
              ([Row.mk 1 [7] Status.processing (some "tok") false 0 3 0].get ⟨i, h1⟩).created_at 9
              ([Row.mk 1 [7] Status.processing (some "tok") false 0 3 0].get ⟨i, h1⟩).priority) ∧
        (¬ (([Row.mk 1 [7] Status.processing (some "tok") false 0 3 0].get ⟨i, h1⟩).status =
              Status.processing ∧
            ([Row.mk 1 [7] Status.processing (some "tok") false 0 3 0].get ⟨i, h1⟩).ack = false) →
          (requeueRows [Row.mk 1 [7] Status.processing (some "tok") false 0 3 0] 9).get ⟨i, h2⟩ =
            [Row.mk 1 [7] Status.processing (some "tok") false 0 3 0].get ⟨i, h1⟩)) ∧
      (∀ r ∈ [Row.mk 1 [7] Status.processing (some "tok") false 0 3 0],
        r.status = Status.processing → r.ack = false →
        ∀ (w : Bool) (fresh : String) (n2 : Nat),
          (Queue.dequeueInternal (Queue.mk "jobs" true false) db' fateOk w fresh n2).success =
            true) :=
  c9_recovery_pass (Queue.mk "jobs" true false)
    (DB.mk true [("jobs",
      Table.mk [Row.mk 1 [7] Status.processing (some "tok") false 0 3 0] 2 false)])
    (Table.mk [Row.mk 1 [7] Status.processing (some "tok") false 0 3 0] 2 false)
    9 rfl rfl rfl

/-- C10: Close only sets the closed flag and returns a nil error; Len,
Values and Purge are not gated by the flag — after Close they still
compute from storage exactly as before, Len counting pending rows and
Purge deleting every row of the table. -/
theorem c10_close_frame (q : Queue) (db : DB) (f : TxFate) (t : Table)
    (hconn : db.connOpen = true) (ht : db.getTable q.tableName = some t) :
    Queue.close q = (Queue.mk q.tableName q.removeOnComplete true, none) ∧
    Queue.len (Queue.close q).1 db = Queue.len q db ∧
    Queue.values (Queue.close q).1 db = Queue.values q db ∧
    Queue.purge (Queue.close q).1 db f = Queue.purge q db f ∧
    Queue.len (Queue.close q).1 db = (pendingRows t.rows).length ∧
    (Queue.purge (Queue.close q).1 db fateOk).getTable q.tableName =
      some (Table.mk [] t.nextId t.hasPriority) := by
  refine ⟨rfl, rfl, rfl, rfl, ?_, ?_⟩
  · simp [Queue.len, Queue.close, hconn, ht]
  · simp [Queue.purge, Queue.close, TxFate.beginOn, fateOk, hconn, ht,
      DB.getTable_setTable]

/-- C10 theorem witness at a concrete open connection. -/
theorem c10_close_frame_witness :
    Queue.close (Queue.mk "jobs" true false) = (Queue.mk "jobs" true true, none) ∧
    Queue.len (Queue.close (Queue.mk "jobs" true false)).1
      (DB.mk true [("jobs", Table.mk [Row.mk 1 [7] Status.pending none false 0 0 0] 2 false)]) =
      Queue.len (Queue.mk "jobs" true false)
        (DB.mk true [("jobs", Table.mk [Row.mk 1 [7] Status.pending none false 0 0 0] 2 false)]) ∧
    Queue.values (Queue.close (Queue.mk "jobs" true false)).1
      (DB.mk true [("jobs", Table.mk [Row.mk 1 [7] Status.pending none false 0 0 0] 2 false)]) =
      Queue.values (Queue.mk "jobs" true false)
        (DB.mk true [("jobs", Table.mk [Row.mk 1 [7] Status.pending none false 0 0 0] 2 false)]) ∧
    Queue.purge (Queue.close (Queue.mk "jobs" true false)).1
      (DB.mk true [("jobs", Table.mk [Row.mk 1 [7] Status.pending none false 0 0 0] 2 false)])
      fateOk =
      Queue.purge (Queue.mk "jobs" true false)
        (DB.mk true [("jobs", Table.mk [Row.mk 1 [7] Status.pending none false 0 0 0] 2 false)])
        fateOk ∧
    Queue.len (Queue.close (Queue.mk "jobs" true false)).1
      (DB.mk true [("jobs", Table.mk [Row.mk 1 [7] Status.pending none false 0 0 0] 2 false)]) =
      (pendingRows [Row.mk 1 [7] Status.pending none false 0 0 0]).length ∧
    (Queue.purge (Queue.close (Queue.mk "jobs" true false)).1
      (DB.mk true [("jobs", Table.mk [Row.mk 1 [7] Status.pending none false 0 0 0] 2 false)])
      fateOk).getTable "jobs" = some (Table.mk [] 2 false) :=
  c10_close_frame (Queue.mk "jobs" true false)
    (DB.mk true [("jobs", Table.mk [Row.mk 1 [7] Status.pending none false 0 0 0] 2 false)])
    fateOk (Table.mk [Row.mk 1 [7] Status.pending none false 0 0 0] 2 false) rfl rfl

/- Helper lemmas for the FIFO ordering claim. -/

theorem enqueue_step (q : Queue) (db : DB) (R : List Row) (k : Nat) (hp : Bool)
    (p : List Nat) (n : Nat)
    (hq : q.closed = false) (hconn : db.connOpen = true)
    (ht : db.getTable q.tableName = some (Table.mk R k hp)) :
    q.enqueue db fateOk p n =
      (db.setTable q.tableName
        (Table.mk (R ++ [Row.mk k p Status.pending none false n n 0]) (k + 1) hp), true) := by
  simp [Queue.enqueue, TxFate.beginOn, fateOk, hq, hconn, ht, enqueueRow]

theorem enqueueAllFrom_spec (q : Queue) (hq : q.closed = false) :
    ∀ (items : List (List Nat × Nat)) (db : DB) (R : List Row) (k : Nat) (hp : Bool),
    db.connOpen = true → db.getTable q.tableName = some (Table.mk R k hp) →
    (enqueueAllFrom q fateOk db items).connOpen = true ∧
    (enqueueAllFrom q fateOk db items).getTable q.tableName =
      some (Table.mk (R ++ newRows items k) (k + items.length) hp) := by
  intro items
  induction items with
  | nil =>
    intro db R k hp hconn ht
    refine ⟨hconn, ?_⟩
    simpa [enqueueAllFrom, newRows] using ht
  | cons hd rest ih =>
    intro db R k hp hconn ht
    obtain ⟨p, n⟩ := hd
    show (enqueueAllFrom q fateOk (q.enqueue db fateOk p n).1 rest).connOpen = true ∧
      (enqueueAllFrom q fateOk (q.enqueue db fateOk p n).1 rest).getTable q.tableName =
        some (Table.mk (R ++ newRows ((p, n) :: rest) k)
          (k + ((p, n) :: rest).length) hp)
    rw [enqueue_step q db R k hp p n hq hconn ht]
    have h2 := ih (db.setTable q.tableName
        (Table.mk (R ++ [Row.mk k p Status.pending none false n n 0]) (k + 1) hp))
      (R ++ [Row.mk k p Status.pending none false n n 0]) (k + 1) hp
      (by rw [DB.connOpen_setTable]; exact hconn)
      (DB.getTable_setTable db q.tableName _)
    refine ⟨h2.1, ?_⟩
    rw [h2.2]
    have hrows : (R ++ [Row.mk k p Status.pending none false n n 0]) ++ newRows rest (k + 1) =
        R ++ newRows ((p, n) :: rest) k := by
      simp [newRows]
    have hlen : (k + 1) + rest.length = k + ((p, n) :: rest).length := by
      simp
      omega
    rw [hrows, hlen]

theorem newRows_length (items : List (List Nat × Nat)) (k : Nat) :
    (newRows items k).length = items.length := by
  induction items generalizing k with
  | nil => rfl
  | cons hd rest ih =>
    obtain ⟨p, n⟩ := hd
    simp [newRows, ih]

theorem newRows_map_data (items : List (List Nat × Nat)) (k : Nat) :
    (newRows items k).map (fun r => some r.data) = items.map (fun x => some x.1) := by
  induction items generalizing k with
  | nil => rfl
  | cons hd rest ih =>
    obtain ⟨p, n⟩ := hd
    simp [newRows, ih]

theorem newRows_pending (items : List (List Nat × Nat)) (k : Nat) :
    ∀ r ∈ newRows items k, r.status = Status.pending := by
  induction items generalizing k with
  | nil => intro r hr; simp [newRows] at hr
  | cons hd rest ih =>
    obtain ⟨p, n⟩ := hd
    intro r hr
    rcases List.mem_cons.mp hr with hr | hr
    · rw [hr]
    · exact ih (k + 1) r hr

theorem newRows_id_ge (items : List (List Nat × Nat)) (k : Nat) :
    ∀ r ∈ newRows items k, k ≤ r.id := by
  induction items generalizing k with
  | nil => intro r hr; simp [newRows] at hr
  | cons hd rest ih =>
    obtain ⟨p, n⟩ := hd
    intro r hr
    rcases List.mem_cons.mp hr with hr | hr
    · rw [hr]
    · exact Nat.le_of_succ_le (ih (k + 1) r hr)

theorem newRows_time (items : List (List Nat × Nat)) (k : Nat) :
    ∀ r ∈ newRows items k, ∃ x ∈ items, r.created_at = x.2 := by
  induction items generalizing k with
  | nil => intro r hr; simp [newRows] at hr
  | cons hd rest ih =>
    obtain ⟨p, n⟩ := hd
    intro r hr
    rcases List.mem_cons.mp hr with hr | hr
    · exact ⟨(p, n), List.mem_cons_self _ _, by rw [hr]⟩
    · obtain ⟨x, hx, hxe⟩ := ih (k + 1) r hr
      exact ⟨x, List.mem_cons_of_mem _ hx, hxe⟩

theorem newRows_ord (items : List (List Nat × Nat)) (k : Nat)
    (hmono : items.Pairwise (fun a b => a.2 ≤ b.2)) :
    (newRows items k).Pairwise
      (fun a b : Row => a.created_at ≤ b.created_at ∧ a.id < b.id) := by
  induction items generalizing k with
  | nil => exact List.Pairwise.nil
  | cons hd rest ih =>
    obtain ⟨p, n⟩ := hd
    rcases List.pairwise_cons.mp hmono with ⟨hhd, htl⟩
    refine List.pairwise_cons.mpr ⟨?_, ih (k + 1) htl⟩
    intro y hy
    constructor
    · obtain ⟨x, hx, hxe⟩ := newRows_time rest (k + 1) y hy
      rw [hxe]
      exact hhd x hx
    · exact Nat.lt_of_succ_le (newRows_id_ge rest (k + 1) y hy)

theorem dequeue_sorted_step (q : Queue) (db : DB) (r : Row) (rs : List Row)
    (k : Nat) (hp : Bool)
    (hq : q.closed = false) (hconn : db.connOpen = true)
    (ht : db.getTable q.tableName = some (Table.mk (r :: rs) k hp))
    (hpend : ∀ x ∈ r :: rs, x.status = Status.pending)
    (hord : (r :: rs).Pairwise (fun a b : Row => a.created_at ≤ b.created_at ∧ a.id < b.id)) :
    ∃ s, q.dequeueInternal db fateOk false "" 0 =
      DeqResult.mk (db.setTable q.tableName (Table.mk rs k hp)) (some r.data) true s := by
  rcases List.pairwise_cons.mp hord with ⟨hhd, _⟩
  have hfil : pendingRows (r :: rs) = r :: rs := by
    apply List.filter_eq_self.mpr
    intro x hx
    simp [hpend x hx]
  have hsel : selectFifo (Table.mk (r :: rs) k hp) = some r := by
    unfold selectFifo
    show minBy fifoLe (pendingRows (r :: rs)) = some r
    rw [hfil]
    apply minBy_head
    intro x hx
    have hx2 := hhd x hx
    unfold fifoLe
    omega
  have hdel : deleteRow (Table.mk (r :: rs) k hp) r.id = Table.mk rs k hp := by
    unfold deleteRow
    have h2 : rs.filter (fun x => decide (¬ x.id = r.id)) = rs := by
      apply List.filter_eq_self.mpr
      intro x hx
      have := (hhd x hx).2
      simp
      omega
    simp [List.filter_cons, h2]
    intro x hx
    have := (hhd x hx).2
    omega
  refine ⟨(match r.ack_id with | some u => u | none => ""), ?_⟩
  simp [Queue.dequeueInternal, TxFate.beginOn, fateOk, hq, hconn, ht, hsel, hdel]

theorem dequeueList_sorted (q : Queue) (hq : q.closed = false) :
    ∀ (rs : List Row) (db : DB) (k : Nat) (hp : Bool),
    db.connOpen = true → db.getTable q.tableName = some (Table.mk rs k hp) →
    (∀ x ∈ rs, x.status = Status.pending) →
    rs.Pairwise (fun a b : Row => a.created_at ≤ b.created_at ∧ a.id < b.id) →
    dequeueList q fateOk rs.length db = rs.map (fun r => some r.data) := by
  intro rs
  induction rs with
  | nil => intro db k hp _ _ _ _; rfl
  | cons r rest ih =>
    intro db k hp hconn ht hpend hord
    obtain ⟨s, hstep⟩ := dequeue_sorted_step q db r rest k hp hq hconn ht hpend hord
    show (q.dequeueInternal db fateOk false "" 0).item ::
        dequeueList q fateOk rest.length (q.dequeueInternal db fateOk false "" 0).db =
      some r.data :: rest.map (fun x => some x.data)
    rw [hstep]
    refine congrArg (some r.data :: ·) ?_
    exact ih (db.setTable q.tableName (Table.mk rest k hp)) k hp
      (by rw [DB.connOpen_setTable]; exact hconn)
      (DB.getTable_setTable db q.tableName _)
      (fun x hx => hpend x (List.mem_cons_of_mem r hx))
      (List.pairwise_cons.mp hord).2

/-- C7: on a fresh plain queue, any sequence of N Enqueue calls with
nondecreasing timestamps followed by N Dequeue calls succeeds on every
Dequeue and returns the payloads byte-for-byte in insertion order. -/
theorem c7_fifo_order (q : Queue) (db : DB) (k : Nat) (hp : Bool)
    (items : List (List Nat × Nat))
    (hq : q.closed = false) (hconn : db.connOpen = true)
    (ht : db.getTable q.tableName = some (Table.mk [] k hp))
    (hmono : items.Pairwise (fun a b => a.2 ≤ b.2)) :
    dequeueList q fateOk items.length (enqueueAllFrom q fateOk db items) =
      items.map (fun x => some x.1) := by
  obtain ⟨hconn2, ht2⟩ := enqueueAllFrom_spec q hq items db [] k hp hconn ht
  rw [← newRows_length items k]
  rw [dequeueList_sorted q hq (newRows items k) _ (k + items.length) hp hconn2
    (by simpa using ht2) (newRows_pending items k) (newRows_ord items k hmono)]
  exact newRows_map_data items k

/-- C7 theorem witness on three concrete enqueues and dequeues. -/
theorem c7_fifo_order_witness :
    dequeueList (Queue.mk "jobs" true false) fateOk
      [([1], 0), ([2], 0), ([3], 5)].length
      (enqueueAllFrom (Queue.mk "jobs" true false) fateOk
        (DB.mk true [("jobs", Table.mk [] 1 false)]) [([1], 0), ([2], 0), ([3], 5)]) =
      [([1], 0), ([2], 0), ([3], 5)].map (fun x => some x.1) :=
  c7_fifo_order (Queue.mk "jobs" true false) (DB.mk true [("jobs", Table.mk [] 1 false)])
    1 false [([1], 0), ([2], 0), ([3], 5)] rfl rfl rfl (by decide)

/-- C8: on a priority queue, whenever two pending rows a and b satisfy
a.priority < b.priority — or equal priority with a inserted earlier
(strictly smaller created_at) — a Dequeue/DequeueWithAck claims some
row at least as good as a and never b: the selected row r satisfies
prioLe r a, differs from b, the call succeeds returning the payload of r,
and b is still present (pending) in the resulting table. -/
theorem c8_priority_order (q : Queue) (db : DB) (t : Table) (a b : Row) (w : Bool)
    (fresh : String) (now : Nat)
    (hq : q.closed = false) (hconn : db.connOpen = true)
    (ht : db.getTable q.tableName = some t)
    (hid : ∀ x ∈ t.rows, ∀ y ∈ t.rows, x.id = y.id → x = y)
    (ha : a ∈ t.rows) (hpa : a.status = Status.pending)
    (hb : b ∈ t.rows) (hpb : b.status = Status.pending)
    (hlt : a.priority < b.priority ∨
      (a.priority = b.priority ∧ a.created_at < b.created_at)) :
    ∃ r, selectPrio t = some r ∧ r ∈ t.rows ∧ r.status = Status.pending ∧
      prioLe r a ∧ ¬ r = b ∧
      (PriorityQueue.dequeueInternal q db fateOk w fresh now).success = true ∧
      (PriorityQueue.dequeueInternal q db fateOk w fresh now).item = some r.data ∧
      ∃ t2, (PriorityQueue.dequeueInternal q db fateOk w fresh now).db.getTable q.tableName =
        some t2 ∧ b ∈ t2.rows := by
  have haP : a ∈ pendingRows t.rows := List.mem_filter.mpr ⟨ha, by simp [hpa]⟩
  have hbP : b ∈ pendingRows t.rows := List.mem_filter.mpr ⟨hb, by simp [hpb]⟩
  cases hsel : selectPrio t with
  | none =>
    exfalso
    unfold selectPrio at hsel
    exact List.ne_nil_of_mem haP ((minBy_eq_none prioLe _).mp hsel)
  | some r =>
    have hsel2 := hsel
    unfold selectPrio at hsel2
    have hrP : r ∈ pendingRows t.rows := minBy_mem prioLe _ r hsel2
    obtain ⟨hrrows, hrpendB⟩ := List.mem_filter.mp hrP
    have hrpend : r.status = Status.pending := by simpa using hrpendB
    have hra : prioLe r a := minBy_le_all prioLe prioLe_total prioLe_trans _ r hsel2 a haP
    have hrnb : ¬ r = b := by
      intro heq
      rw [heq] at hra
      unfold prioLe fifoLe at hra
      rcases hlt with h | ⟨h1, h2⟩ <;> omega
    have hbne : ¬ b.id = r.id := fun h => hrnb (hid r hrrows b hb h.symm)
    cases w with
    | true =>
      have hres : PriorityQueue.dequeueInternal q db fateOk true fresh now =
          DeqResult.mk
            (db.setTable q.tableName (updateRow t r.id (fun row =>
              Row.mk row.id row.data Status.processing (some fresh) row.ack
                row.created_at now row.priority)))
            (some r.data) true fresh := by
        simp [PriorityQueue.dequeueInternal, TxFate.beginOn, fateOk, hq, hconn, ht, hsel]
      refine ⟨r, rfl, hrrows, hrpend, hra, hrnb, ?_, ?_, ?_⟩
      · rw [hres]
      · rw [hres]
      · rw [hres]
        refine ⟨updateRow t r.id (fun row =>
          Row.mk row.id row.data Status.processing (some fresh) row.ack
            row.created_at now row.priority), DB.getTable_setTable db q.tableName _, ?_⟩
        unfold updateRow
        exact List.mem_map.mpr ⟨b, hb, by simp [hbne]⟩
    | false =>
      have hres : PriorityQueue.dequeueInternal q db fateOk false fresh now =
          DeqResult.mk (db.setTable q.tableName (deleteRow t r.id))
            (some r.data) true "" := by
        simp [PriorityQueue.dequeueInternal, TxFate.beginOn, fateOk, hq, hconn, ht, hsel]
      refine ⟨r, rfl, hrrows, hrpend, hra, hrnb, ?_, ?_, ?_⟩
      · rw [hres]
      · rw [hres]
      · rw [hres]
        refine ⟨deleteRow t r.id, DB.getTable_setTable db q.tableName _, ?_⟩
        unfold deleteRow
        exact List.mem_filter.mpr ⟨hb, by simp [hbne]⟩

/-- C8 theorem witness: a lower-priority-value row enqueued later is
claimed before an earlier higher-priority-value row. -/
theorem c8_priority_order_witness :
    ∃ r, selectPrio (Table.mk
        [Row.mk 1 [7] Status.pending none false 0 0 5,
         Row.mk 2 [9] Status.pending none false 1 1 1] 3 true) = some r ∧
      r ∈ (Table.mk
        [Row.mk 1 [7] Status.pending none false 0 0 5,
         Row.mk 2 [9] Status.pending none false 1 1 1] 3 true).rows ∧
      r.status = Status.pending ∧
      prioLe r (Row.mk 2 [9] Status.pending none false 1 1 1) ∧
      ¬ r = Row.mk 1 [7] Status.pending none false 0 0 5 ∧
      (PriorityQueue.dequeueInternal (Queue.mk "jobs" true false)
        (DB.mk true [("jobs", Table.mk
          [Row.mk 1 [7] Status.pending none false 0 0 5,
           Row.mk 2 [9] Status.pending none false 1 1 1] 3 true)])
        fateOk true "fresh" 9).success = true ∧
      (PriorityQueue.dequeueInternal (Queue.mk "jobs" true false)
        (DB.mk true [("jobs", Table.mk
          [Row.mk 1 [7] Status.pending none false 0 0 5,
           Row.mk 2 [9] Status.pending none false 1 1 1] 3 true)])
        fateOk true "fresh" 9).item = some r.data ∧
      ∃ t2, (PriorityQueue.dequeueInternal (Queue.mk "jobs" true false)
          (DB.mk true [("jobs", Table.mk
            [Row.mk 1 [7] Status.pending none false 0 0 5,
             Row.mk 2 [9] Status.pending none false 1 1 1] 3 true)])
          fateOk true "fresh" 9).db.getTable "jobs" = some t2 ∧
        (Row.mk 1 [7] Status.pending none false 0 0 5) ∈ t2.rows :=
  c8_priority_order (Queue.mk "jobs" true false)
    (DB.mk true [("jobs", Table.mk
      [Row.mk 1 [7] Status.pending none false 0 0 5,
       Row.mk 2 [9] Status.pending none false 1 1 1] 3 true)])
    (Table.mk
      [Row.mk 1 [7] Status.pending none false 0 0 5,
       Row.mk 2 [9] Status.pending none false 1 1 1] 3 true)
    (Row.mk 2 [9] Status.pending none false 1 1 1)
    (Row.mk 1 [7] Status.pending none false 0 0 5)
    true "fresh" 9 rfl rfl rfl (by decide) (by decide) rfl (by decide) rfl (by decide)

end Sqliteq
